import Mathlib

/-!
Shallow embedding of the MCP client subsystem (src/mcp/{protocol,connection,
manager,types}.rs) of the Agent repository.

Modelling conventions:
- `serde_json::Value` is modelled by the inductive `Json` below (numbers as
  `Int`: the claims under verification only involve integer payloads).
- `Value::to_string()` (compact serde_json rendering) is `Json.render`,
  defined with a size fuel so that it is structurally recursive and hence
  kernel-computable; the fuel never runs out because it starts at `sizeOf`.
- Rust `str::lines`, `str::trim`, `str::splitn`, `str::starts_with` are
  modelled character-faithfully for ASCII input over `List Char`
  (`rustLines`, `rustTrim`, `splitn2`, `strStartsWith`), since the claims
  exercise ASCII payloads only.
- Machine integers: the per-session `request_id: u64` is a `Nat` incremented
  modulo 2^64.
- The transport channel (child-process pipe / HTTP round trip) is external IO;
  it is modelled by `McpTransport`: a script of the successive outcomes the
  channel will deliver, plus the log of request envelopes written to it.
-/

/-- Model of `serde_json::Value` (numbers restricted to integers). -/
inductive Json where
  | null
  | bool (b : Bool)
  | num (n : Int)
  | str (s : String)
  | arr (items : List Json)
  | obj (fields : List (String × Json))

/-- `Value::get(key)`: field lookup, `None` on non-objects. -/
def Json.get : Json → String → Option Json
  | .obj fields, key => fields.lookup key
  | _, _ => none

/-- `Value::as_array()`. -/
def Json.asArray : Json → Option (List Json)
  | .arr items => some items
  | _ => none

/-- `Value::as_str()`. -/
def Json.asStr : Json → Option String
  | .str s => some s
  | _ => none

def hexDigit (n : Nat) : Char :=
  if n < 10 then Char.ofNat (48 + n) else Char.ofNat (87 + n)

def hex4 (n : Nat) : String :=
  String.mk [hexDigit (n / 4096 % 16), hexDigit (n / 256 % 16),
             hexDigit (n / 16 % 16), hexDigit (n % 16)]

/-- serde_json string escaping for one character. -/
def escapeJsonChar (c : Char) : String :=
  if c = Char.ofNat 34 then "\\\""
  else if c = Char.ofNat 92 then "\\\\"
  else if c = Char.ofNat 10 then "\\n"
  else if c = Char.ofNat 9 then "\\t"
  else if c = Char.ofNat 13 then "\\r"
  else if c = Char.ofNat 8 then "\\b"
  else if c = Char.ofNat 12 then "\\f"
  else if c.toNat < 32 then "\\u" ++ hex4 c.toNat
  else String.singleton c

def escapeJsonString (s : String) : String :=
  String.join (s.data.map escapeJsonChar)

mutual

/-- Compact rendering, modelling `Value::to_string()` of serde_json. -/
def Json.render : Json → String
  | .null => "null"
  | .bool true => "true"
  | .bool false => "false"
  | .num n => toString n
  | .str s => "\"" ++ escapeJsonString s ++ "\""
  | .arr items => "[" ++ String.intercalate "," (renderItems items) ++ "]"
  | .obj fields => "\x7b" ++ String.intercalate "," (renderFields fields) ++ "\x7d"

/-- Renders each array element (the `items.map Json.render` of the
array case, unfolded for structural recursion). -/
def renderItems : List Json → List String
  | [] => []
  | j :: rest => Json.render j :: renderItems rest

/-- Renders each `"key":value` object member. -/
def renderFields : List (String × Json) → List String
  | [] => []
  | kv :: rest =>
    ("\"" ++ escapeJsonString kv.1 ++ "\":" ++ Json.render kv.2) :: renderFields rest

end

/-- Split a character list at newline characters, keeping every segment
(including empty ones). -/
def splitLines : List Char → List (List Char)
  | [] => [[]]
  | c :: cs =>
    match splitLines cs with
    | [] => [[c]]
    | l :: ls => if c = Char.ofNat 10 then [] :: l :: ls else (c :: l) :: ls

/-- Rust `str::lines`: split at newlines, drop the final empty segment
produced by a trailing newline, strip one trailing carriage return per
line. -/
def rustLines (s : String) : List String :=
  let parts := splitLines s.data
  let parts := if parts.getLast? = some [] then parts.dropLast else parts
  parts.map (fun l =>
    String.mk (if l.getLast? = some (Char.ofNat 13) then l.dropLast else l))

/-- ASCII whitespace test matching the characters exercised by this
subsystem (Rust `char::is_whitespace` additionally covers Unicode spaces,
which no claim involves). -/
def rustIsWhitespace (c : Char) : Bool :=
  c = Char.ofNat 32 || c = Char.ofNat 9 || c = Char.ofNat 10 || c = Char.ofNat 13

/-- Rust `str::trim`. -/
def rustTrim (s : String) : String :=
  String.mk (((s.data.dropWhile rustIsWhitespace).reverse.dropWhile rustIsWhitespace).reverse)

/-- Rust `str::starts_with`. -/
def strStartsWith (s p : String) : Bool :=
  p.data.isPrefixOf s.data

/-- Rust `str::strip_prefix`. -/
def stripPrefix (s p : String) : Option String :=
  if strStartsWith s p then some (String.mk (s.data.drop p.data.length)) else none

/-- `parse_sse_response` (src/mcp/protocol.rs:50-58). -/
def parse_sse_response (body : String) : String :=
  ((((rustLines body).filter (fun line => strStartsWith line "data:")).filterMap
      (fun line => (stripPrefix line "data:").map rustTrim)).filter
      (fun s => s ≠ "")).getLast?.getD body

/-- `McpManager::extract_text` (src/mcp/manager.rs:294-306). -/
def extract_text (result : Json) : String :=
  match result.get "content" with
  | some content =>
    match content.asArray with
    | some arr =>
      String.intercalate "\n"
        (arr.filterMap (fun item => (item.get "text").bind Json.asStr))
    | none => content.render
  | none => result.render

/-! ## JSON parsing (model of `serde_json::from_str`)

A fuel-indexed recursive-descent parser over `List Char`. The fuel is a
recursion bound only; `parseJson` supplies `length + 1`, which suffices since
every nested parse consumes at least one character. Numbers are limited to
(optionally signed) integers — no claim involves floating-point payloads. -/

def skipWs : List Char → List Char
  | c :: cs => if rustIsWhitespace c then skipWs cs else c :: cs
  | [] => []

/-- Consume an expected literal character sequence. -/
def dropLit : List Char → List Char → Option (List Char)
  | [], cs => some cs
  | l :: ls, c :: cs => if c = l then dropLit ls cs else none
  | _ :: _, [] => none

def takeDigits : List Char → List Char × List Char
  | c :: cs =>
    if c.isDigit then
      let (ds, rest) := takeDigits cs
      (c :: ds, rest)
    else ([], c :: cs)
  | [] => ([], [])

def natOfDigits (ds : List Char) : Nat :=
  ds.foldl (fun acc c => acc * 10 + (c.toNat - 48)) 0

def hexVal (c : Char) : Option Nat :=
  if c.isDigit then some (c.toNat - 48)
  else if 97 ≤ c.toNat ∧ c.toNat ≤ 102 then some (c.toNat - 87)
  else if 65 ≤ c.toNat ∧ c.toNat ≤ 70 then some (c.toNat - 55)
  else none

/-- Parse the body of a JSON string literal (after the opening quote),
handling the escape sequences serde_json accepts. -/
def parseStringBody : Nat → List Char → Option (List Char × List Char)
  | 0, _ => none
  | _, [] => none
  | fuel + 1, c :: cs =>
    if c = Char.ofNat 34 then some ([], cs)
    else if c = Char.ofNat 92 then
      match cs with
      | [] => none
      | e :: cs' =>
        let esc : Option (Char × List Char) :=
          if e = Char.ofNat 34 then some (Char.ofNat 34, cs')
          else if e = Char.ofNat 92 then some (Char.ofNat 92, cs')
          else if e = Char.ofNat 47 then some (Char.ofNat 47, cs')
          else if e = Char.ofNat 98 then some (Char.ofNat 8, cs')
          else if e = Char.ofNat 102 then some (Char.ofNat 12, cs')
          else if e = Char.ofNat 110 then some (Char.ofNat 10, cs')
          else if e = Char.ofNat 114 then some (Char.ofNat 13, cs')
          else if e = Char.ofNat 116 then some (Char.ofNat 9, cs')
          else if e = Char.ofNat 117 then
            match cs' with
            | h1 :: h2 :: h3 :: h4 :: cs'' =>
              match hexVal h1, hexVal h2, hexVal h3, hexVal h4 with
              | some a, some b, some c3, some d =>
                some (Char.ofNat (a * 4096 + b * 256 + c3 * 16 + d), cs'')
              | _, _, _, _ => none
            | _ => none
          else none
        match esc with
        | some (ch, rest) =>
          match parseStringBody fuel rest with
          | some (body, rest') => some (ch :: body, rest')
          | none => none
        | none => none
    else
      match parseStringBody fuel cs with
      | some (body, rest) => some (c :: body, rest)
      | none => none

mutual

def parseValue : Nat → List Char → Option (Json × List Char)
  | 0, _ => none
  | fuel + 1, cs =>
    match skipWs cs with
    | [] => none
    | c :: cs' =>
      if c = Char.ofNat 110 then
        (dropLit [Char.ofNat 117, Char.ofNat 108, Char.ofNat 108] cs').map (fun r => (Json.null, r))
      else if c = Char.ofNat 116 then
        (dropLit [Char.ofNat 114, Char.ofNat 117, Char.ofNat 101] cs').map
          (fun r => (Json.bool true, r))
      else if c = Char.ofNat 102 then
        (dropLit [Char.ofNat 97, Char.ofNat 108, Char.ofNat 115, Char.ofNat 101] cs').map
          (fun r => (Json.bool false, r))
      else if c = Char.ofNat 34 then
        match parseStringBody (cs'.length + 1) cs' with
        | some (body, rest) => some (Json.str (String.mk body), rest)
        | none => none
      else if c = Char.ofNat 45 then
        match takeDigits cs' with
        | ([], _) => none
        | (ds, rest) => some (Json.num (-(natOfDigits ds : Int)), rest)
      else if c.isDigit then
        match takeDigits (c :: cs') with
        | (ds, rest) => some (Json.num (natOfDigits ds : Int), rest)
      else if c = Char.ofNat 91 then
        match skipWs cs' with
        | d :: rest => if d = Char.ofNat 93 then some (Json.arr [], rest)
                       else parseArrayItems fuel (d :: rest)
        | [] => none
      else if c = Char.ofNat 123 then
        match skipWs cs' with
        | d :: rest => if d = Char.ofNat 125 then some (Json.obj [], rest)
                       else parseObjFields fuel (d :: rest)
        | [] => none
      else none

/-- Parse `value (',' value)* ']'` inside an array. -/
def parseArrayItems : Nat → List Char → Option (Json × List Char)
  | 0, _ => none
  | fuel + 1, cs =>
    match parseValue fuel cs with
    | none => none
    | some (v, rest) =>
      match skipWs rest with
      | d :: rest' =>
        if d = Char.ofNat 44 then
          match parseArrayItems fuel rest' with
          | some (Json.arr vs, rest'') => some (Json.arr (v :: vs), rest'')
          | _ => none
        else if d = Char.ofNat 93 then some (Json.arr [v], rest')
        else none
      | [] => none

/-- Parse `"key" ':' value (',' ...)* '\x7d'` inside an object. -/
def parseObjFields : Nat → List Char → Option (Json × List Char)
  | 0, _ => none
  | fuel + 1, cs =>
    match skipWs cs with
    | k :: cs' =>
      if k = Char.ofNat 34 then
        match parseStringBody (cs'.length + 1) cs' with
        | none => none
        | some (key, rest) =>
          match skipWs rest with
          | c :: rest' =>
            if c = Char.ofNat 58 then
              match parseValue fuel rest' with
              | none => none
              | some (v, rest'') =>
                match skipWs rest'' with
                | d :: rest3 =>
                  if d = Char.ofNat 44 then
                    match parseObjFields fuel rest3 with
                    | some (Json.obj fs, rest4) =>
                      some (Json.obj ((String.mk key, v) :: fs), rest4)
                    | _ => none
                  else if d = Char.ofNat 125 then
                    some (Json.obj [(String.mk key, v)], rest3)
                  else none
                | [] => none
            else none
          | [] => none
      else none
    | [] => none

end

/-- Model of `serde_json::from_str::<Value>`: parse one value, require only
whitespace after it. -/
def parseJson (s : String) : Option Json :=
  match parseValue (s.data.length + 1) s.data with
  | some (v, rest) => if skipWs rest = [] then some v else none
  | none => none

/-! ## Protocol layer (src/mcp/protocol.rs) -/

/-- `JsonRpcRequest` (src/mcp/protocol.rs:5-23); `id: u64` as `Nat`. -/
structure JsonRpcRequest where
  jsonrpc : String
  id : Nat
  method : String
  params : Option Json

/-- `JsonRpcRequest::new`. -/
def JsonRpcRequest.new (id : Nat) (method : String) (params : Option Json) : JsonRpcRequest :=
  ⟨"2.0", id, method, params⟩

/-- `JsonRpcError` (src/mcp/protocol.rs:44-48); `code: i64` as `Int`. -/
structure JsonRpcError where
  code : Int
  message : String

/-- `JsonRpcResponse` (src/mcp/protocol.rs:25-33). -/
structure JsonRpcResponse where
  jsonrpc : String
  id : Option Nat
  result : Option Json
  error : Option JsonRpcError

/-- The distinct failure sites of the embedded subsystem (the source uses
`anyhow` string errors; each constructor corresponds to one `bail!`/`context`
site). -/
inductive McpError where
  | rpc (code : Int) (message : String)
  | noResult
  | transportClosed
  | httpSend (msg : String)
  | parseFailure (preview : String)
  | serverDisabled (name : String)
  | serverNotConnected (name : String)
  | serverNotFoundInConfig (name : String)
  | invalidToolNameFormat (name : String)

/-- `JsonRpcResponse::into_result` (src/mcp/protocol.rs:36-41). -/
def JsonRpcResponse.into_result (r : JsonRpcResponse) : Except McpError Json :=
  match r.error with
  | some e => .error (.rpc e.code e.message)
  | none =>
    match r.result with
    | some v => .ok v
    | none => .error .noResult

def MCP_PROTOCOL_VERSION : String := "2025-11-25"

/-- `create_init_params` (src/mcp/protocol.rs:62-74). -/
def create_init_params : Json :=
  Json.obj
    [("protocolVersion", Json.str MCP_PROTOCOL_VERSION),
     ("capabilities", Json.obj
        [("roots", Json.obj [("listChanged", Json.bool true)]),
         ("sampling", Json.obj [])]),
     ("clientInfo", Json.obj
        [("name", Json.str "llm-agent"), ("version", Json.str "0.1.0")])]

def Json.asInt : Json → Option Int
  | .num n => some n
  | _ => none

/-- serde deserialization of `JsonRpcResponse` from a JSON value: `jsonrpc`
is a required string; `id`, `result`, `error` are optional (absent or JSON
null decode to `none`); unknown fields are ignored. -/
def decodeJsonRpcResponse (j : Json) : Option JsonRpcResponse :=
  match j with
  | .obj fields => do
    let jr ← (fields.lookup "jsonrpc").bind Json.asStr
    let id ← match fields.lookup "id" with
      | none => some none
      | some .null => some none
      | some (.num n) => if 0 ≤ n ∧ n < (2 : Int) ^ 64 then some (some n.toNat) else none
      | some _ => none
    let result : Option Json := match fields.lookup "result" with
      | none => none
      | some .null => none
      | some v => some v
    let error ← match fields.lookup "error" with
      | none => some none
      | some .null => some none
      | some (.obj ef) => do
        let code ← (ef.lookup "code").bind Json.asInt
        if -((2 : Int) ^ 63) ≤ code ∧ code < (2 : Int) ^ 63 then
          let message ← (ef.lookup "message").bind Json.asStr
          some (some (JsonRpcError.mk code message))
        else none
      | some _ => none
    some ⟨jr, id, result, error⟩
  | _ => none

/-- Model of `serde_json::from_str::<JsonRpcResponse>`. -/
def parseJsonRpcResponse (s : String) : Option JsonRpcResponse :=
  (parseJson s).bind decodeJsonRpcResponse

/-! ## HTTP transport path (src/mcp/connection.rs:117-151) -/

def hasSubstr : List Char → List Char → Bool
  | [], needle => needle.isEmpty
  | c :: t, needle => needle.isPrefixOf (c :: t) || hasSubstr t needle

/-- Rust `str::contains` for a string pattern. -/
def strContainsSubstr (hay needle : String) : Bool :=
  hasSubstr hay.data needle.data

/-- The observable outcome of the external HTTP round trip performed by
`send_http`: either the POST (or the body read) failed at the IO level, or a
response arrived carrying a status code, a `content-type` header value
(empty string when absent) and a body text. -/
inductive HttpOutcome where
  | sendError (msg : String)
  | response (status : Nat) (content_type : String) (body : String)

/-- `McpTransport::send_http` (src/mcp/connection.rs:117-151) as a function
of the HTTP round-trip outcome. The source never inspects the response
status code: only the `content-type` header and the body text are used. -/
def send_http : HttpOutcome → Except McpError JsonRpcResponse
  | .sendError msg => .error (.httpSend msg)
  | .response _status content_type body =>
    let json_str := if strContainsSubstr content_type "text/event-stream"
                    then parse_sse_response body
                    else body
    match parseJsonRpcResponse json_str with
    | some r => .ok r
    | none => .error (.parseFailure (String.mk (json_str.data.take 200)))

/-! ## Data types (src/mcp/types.rs) and the manager (src/mcp/manager.rs) -/

/-- `McpTool` (src/mcp/types.rs:27-32). -/
structure McpTool where
  name : String
  description : Option String
  input_schema : Json

/-- `McpResource` (src/mcp/types.rs:34-41). -/
structure McpResource where
  uri : String
  name : String
  description : Option String
  mime_type : Option String

/-- serde deserialization of one `McpTool` from a JSON value. -/
def decodeTool (j : Json) : Option McpTool :=
  match j with
  | .obj fields => do
    let name ← (fields.lookup "name").bind Json.asStr
    let description ← match fields.lookup "description" with
      | none => some none
      | some .null => some none
      | some (.str s) => some (some s)
      | some _ => none
    let schema ← fields.lookup "inputSchema"
    some ⟨name, description, schema⟩
  | _ => none

/-- serde deserialization of `Vec<McpTool>`. -/
def decodeTools (j : Json) : Option (List McpTool) :=
  match j with
  | .arr items => items.mapM decodeTool
  | _ => none

/-- serde deserialization of one `McpResource` from a JSON value. -/
def decodeResource (j : Json) : Option McpResource :=
  match j with
  | .obj fields => do
    let uri ← (fields.lookup "uri").bind Json.asStr
    let name ← (fields.lookup "name").bind Json.asStr
    let description ← match fields.lookup "description" with
      | none => some none
      | some .null => some none
      | some (.str s) => some (some s)
      | some _ => none
    let mime ← match fields.lookup "mimeType" with
      | none => some none
      | some .null => some none
      | some (.str s) => some (some s)
      | some _ => none
    some ⟨uri, name, description, mime⟩
  | _ => none

/-- serde deserialization of `Vec<McpResource>`. -/
def decodeResources (j : Json) : Option (List McpResource) :=
  match j with
  | .arr items => items.mapM decodeResource
  | _ => none

/-- `McpServerConfig` (src/mcp/types.rs:6-18). -/
structure McpServerConfig where
  command : Option String
  args : List String
  env : List (String × String)
  disabled : Bool
  transport_type : Option String
  url : Option String

/-- The transport channel abstracted as the script of outcomes the external
side will deliver to successive `send` calls, plus the log of request
envelopes written to the channel. A `send` writes its request to the log and
consumes the next scripted outcome; an exhausted script behaves as a closed
stream (`send_stdio`, src/mcp/connection.rs:99-101). -/
structure McpTransport where
  script : List (Except McpError JsonRpcResponse)
  sent : List JsonRpcRequest

/-- `McpTransport::send` (src/mcp/connection.rs:71-80). -/
def McpTransport.send (t : McpTransport) (req : JsonRpcRequest) :
    Except McpError JsonRpcResponse × McpTransport :=
  match t.script with
  | [] => (.error .transportClosed, ⟨[], t.sent ++ [req]⟩)
  | r :: rest => (r, ⟨rest, t.sent ++ [req]⟩)

def U64_MOD : Nat := 2 ^ 64

/-- `McpServerInstance` (src/mcp/manager.rs:15-22). -/
structure McpServerInstance where
  name : String
  transport : McpTransport
  request_id : Nat
  tools : List McpTool
  resources : List McpResource

/-- `McpServerInstance::new` (src/mcp/manager.rs:25-33): counter starts at 0. -/
def McpServerInstance.new (name : String) (transport : McpTransport) : McpServerInstance :=
  ⟨name, transport, 0, [], []⟩

/-- `McpServerInstance::send_request` (src/mcp/manager.rs:35-43): increments
the id (u64 wrap-around), sends the envelope, unwraps via `into_result`. -/
def McpServerInstance.send_request (inst : McpServerInstance) (method : String)
    (params : Option Json) : Except McpError Json × McpServerInstance :=
  let newId := (inst.request_id + 1) % U64_MOD
  let request := JsonRpcRequest.new newId method params
  let (resp, transport') := inst.transport.send request
  let inst' := { inst with request_id := newId, transport := transport' }
  match resp with
  | .error e => (.error e, inst')
  | .ok r => (r.into_result, inst')

/-- `McpServerInstance::initialize` (src/mcp/manager.rs:45-75): the
handshake. `initialize` failure aborts; the `notifications/initialized`
outcome is discarded; `tools/list` and `resources/list` are best-effort with
`unwrap_or_default` decoding. -/
def McpServerInstance.init_handshake (inst : McpServerInstance) :
    Except McpError Unit × McpServerInstance :=
  let (initRes, inst1) := inst.send_request "initialize" (some create_init_params)
  match initRes with
  | .error e => (.error e, inst1)
  | .ok _ =>
    let (_, inst2) := inst1.send_request "notifications/initialized" none
    let (toolsRes, inst3) := inst2.send_request "tools/list" none
    let inst4 := match toolsRes with
      | .ok tr =>
        match tr.get "tools" with
        | some tj => { inst3 with tools := (decodeTools tj).getD [] }
        | none => inst3
      | .error _ => inst3
    let (resRes, inst5) := inst4.send_request "resources/list" none
    let inst6 := match resRes with
      | .ok rr =>
        match rr.get "resources" with
        | some rj => { inst5 with resources := (decodeResources rj).getD [] }
        | none => inst5
      | .error _ => inst5
    (.ok (), inst6)

/-- `HashSet::insert` on the enabled-set model. -/
def setInsert (l : List String) (x : String) : List String :=
  if x ∈ l then l else x :: l

/-- `HashMap::insert` on the association-list model (replaces any previous
binding for the key). -/
def alistInsert {α : Type} (l : List (String × α)) (k : String) (v : α) :
    List (String × α) :=
  (k, v) :: l.filter (fun p => p.1 ≠ k)

/-- `HashMap::remove` on the association-list model. -/
def alistRemove {α : Type} (l : List (String × α)) (k : String) : List (String × α) :=
  l.filter (fun p => p.1 ≠ k)

/-- `McpManager` (src/mcp/manager.rs:78-83): live sessions, configuration,
enabled set (the shared HTTP client has no observable state). -/
structure McpManager where
  servers : List (String × McpServerInstance)
  config : List (String × McpServerConfig)
  enabled_servers : List String

/-- `McpManager::connect_server` (src/mcp/manager.rs:140-167): the transport
construction (process spawn / HTTP client setup) is external IO, so the
embedding receives the built transport's channel as an argument; the
function runs the handshake and registers the session on success. -/
def McpManager.connect_server (m : McpManager) (name : String)
    (transport : McpTransport) : Except McpError Unit × McpManager :=
  let inst := McpServerInstance.new name transport
  let (r, inst') := inst.init_handshake
  match r with
  | .error e => (.error e, m)
  | .ok _ => (.ok (), { m with servers := alistInsert m.servers name inst' })

/-- `McpManager::enable_server` (src/mcp/manager.rs:169-186). The transport
that `connect_server` would build is passed as an argument. -/
def McpManager.enable_server (m : McpManager) (name : String)
    (transport : McpTransport) : Except McpError Unit × McpManager :=
  match m.config.lookup name with
  | none => (.error (.serverNotFoundInConfig name), m)
  | some _ =>
    let m1 := { m with enabled_servers := setInsert m.enabled_servers name }
    if (m1.servers.lookup name).isSome then (.ok (), m1)
    else m1.connect_server name transport

/-- `McpManager::disable_server` (src/mcp/manager.rs:188-198). -/
def McpManager.disable_server (m : McpManager) (name : String) :
    Except McpError Unit × McpManager :=
  (.ok (), { m with
    enabled_servers := m.enabled_servers.filter (fun s => s ≠ name),
    servers := alistRemove m.servers name })

/-- `McpManager::get_all_tools` (src/mcp/manager.rs:229-243). -/
def McpManager.get_all_tools (m : McpManager) : List (String × McpTool) :=
  m.servers.flatMap (fun p =>
    if p.1 ∈ m.enabled_servers then p.2.tools.map (fun t => (p.1, t)) else [])

/-- `McpManager::call_tool` (src/mcp/manager.rs:245-266). -/
def McpManager.call_tool (m : McpManager) (server_name tool_name : String)
    (arguments : Json) : Except McpError Json × McpManager :=
  if server_name ∉ m.enabled_servers then
    (.error (.serverDisabled server_name), m)
  else
    match m.servers.lookup server_name with
    | none => (.error (.serverNotConnected server_name), m)
    | some inst =>
      let params := Json.obj [("name", Json.str tool_name), ("arguments", arguments)]
      let (r, inst') := inst.send_request "tools/call" (some params)
      (r, { m with servers := alistInsert m.servers server_name inst' })

/-- Rust `str::splitn(2, sep)`: at most two pieces, split at the first
occurrence of the separator. -/
def splitn2Chars (sep : Char) : List Char → Option (List Char × List Char)
  | [] => none
  | c :: cs =>
    if c = sep then some ([], cs)
    else (splitn2Chars sep cs).map (fun p => (c :: p.1, p.2))

def splitn2 (s : String) (sep : Char) : List String :=
  match splitn2Chars sep s.data with
  | none => [s]
  | some (a, b) => [String.mk a, String.mk b]

/-- `McpManager::call_tool_by_full_name` (src/mcp/manager.rs:268-282). -/
def McpManager.call_tool_by_full_name (m : McpManager) (full_name : String)
    (arguments : Json) : Except McpError Json × McpManager :=
  match splitn2 full_name '_' with
  | [server_name, tool_name] => m.call_tool server_name tool_name arguments
  | _ => (.error (.invalidToolNameFormat full_name), m)

/-- `McpManager::call_tool_text` (src/mcp/manager.rs:284-292). -/
def McpManager.call_tool_text (m : McpManager) (server_name tool_name : String)
    (arguments : Json) : Except McpError String × McpManager :=
  let (r, m') := m.call_tool server_name tool_name arguments
  match r with
  | .error e => (.error e, m')
  | .ok v => (.ok (extract_text v), m')

/-- Runs a list of `send_request` calls (method, params) through one session,
returning the final session state. -/
def runSends (inst : McpServerInstance) : List (String × Option Json) → McpServerInstance
  | [] => inst
  | (method, params) :: rest => runSends (inst.send_request method params).2 rest

/-- The value `send_request` unwraps from one scripted channel outcome. -/
def outcomeResult : Except McpError JsonRpcResponse → Except McpError Json
  | .error e => .error e
  | .ok r => r.into_result

/-- The tool cache the handshake leaves behind, as a function of the
`tools/list` outcome: empty on failure, on a missing `tools` field, and on a
decode failure (`unwrap_or_default`). -/
def toolsFromOutcome : Except McpError Json → List McpTool
  | .ok tr =>
    match tr.get "tools" with
    | some tj => (decodeTools tj).getD []
    | none => []
  | .error _ => []

/-- The resource cache the handshake leaves behind, as a function of the
`resources/list` outcome. -/
def resourcesFromOutcome : Except McpError Json → List McpResource
  | .ok rr =>
    match rr.get "resources" with
    | some rj => (decodeResources rj).getD []
    | none => []
  | .error _ => []

/-- The session state after a successful four-request handshake over a
script starting `r0 :: r1 :: r2 :: r3`. -/
def handshakeInstance (name : String) (r2 r3 : Except McpError JsonRpcResponse)
    (rest : List (Except McpError JsonRpcResponse)) (sent0 : List JsonRpcRequest) :
    McpServerInstance :=
  ⟨name,
   ⟨rest, sent0 ++
      [JsonRpcRequest.new 1 "initialize" (some create_init_params),
       JsonRpcRequest.new 2 "notifications/initialized" none,
       JsonRpcRequest.new 3 "tools/list" none,
       JsonRpcRequest.new 4 "resources/list" none]⟩,
   4, toolsFromOutcome (outcomeResult r2), resourcesFromOutcome (outcomeResult r3)⟩

/-- The SSE reduction exactly as §4.1 of the specification words it: "select
only lines beginning with a data marker, trim them, discard empty ones, and
take the last such line as the JSON payload; if none exist, fall back to the
raw body". Stated from the spec, to be compared with `parse_sse_response`. -/
def sseReduceSpec (body : String) : String :=
  match ((((rustLines body).filter (fun l => strStartsWith l "data:")).map
      (fun l => rustTrim (String.mk (l.data.drop 5)))).filter (fun s => s ≠ "")).getLast? with
  | some l => l
  | none => body

/-! ## Concrete fixtures used by witnesses and counterexamples -/

def c1Body : String :=
  "\x7b\"jsonrpc\":\"2.0\",\"id\":1,\"result\":\x7b\"ok\":true\x7d\x7d"

def c1Resp : JsonRpcResponse :=
  ⟨"2.0", some 1, some (Json.obj [("ok", Json.bool true)]), none⟩

def c2ArrVal : Json :=
  Json.obj [("content",
    Json.arr [Json.obj [("text", Json.str "a")], Json.obj [("text", Json.str "b")]])]

def c2OtherVal : Json := Json.obj [("other", Json.num 1)]

def c2CxVal : Json := Json.obj [("content", Json.str "hi")]

/-- A generic successful JSON-RPC response carrying an empty-object result. -/
def okResp : JsonRpcResponse := ⟨"2.0", some 1, some (Json.obj []), none⟩

def toolT : McpTool := ⟨"t", none, Json.obj []⟩

def emptyTransport : McpTransport := ⟨[], []⟩

def instX : McpServerInstance := ⟨"x", emptyTransport, 0, [toolT], []⟩

def instY : McpServerInstance := ⟨"y", emptyTransport, 0, [toolT], []⟩

def cfgHttp : McpServerConfig :=
  ⟨none, [], [], false, some "http", some "http://localhost:3000/mcp"⟩

/-- A manager with two configured, enabled, connected providers "x" and "y",
and one configured but disabled, unconnected provider "z". -/
def mgr0 : McpManager :=
  ⟨[("x", instX), ("y", instY)],
   [("x", cfgHttp), ("y", cfgHttp), ("z", cfgHttp)],
   ["x", "y"]⟩

/-- A transport whose first (initialize) outcome already fails. -/
def failTransport : McpTransport := ⟨[.error .transportClosed], []⟩

/-- A transport whose initialize succeeds and whose three remaining
handshake outcomes all fail. -/
def handshakeFailTransport : McpTransport :=
  ⟨[.ok okResp, .error .transportClosed, .error .transportClosed, .error .transportClosed], []⟩

/-- A manager whose provider "d" is connected but not enabled (tests the
precedence of the disabled check in `call_tool`). -/
def mgrPrec : McpManager := ⟨[("d", instX)], [("d", cfgHttp)], []⟩

/-- A manager whose provider "w" is enabled but not connected. -/
def mgrNC : McpManager := ⟨[], [("w", cfgHttp)], ["w"]⟩

/-! ## Shared helper lemmas -/

/-- One `send_request` against a transport with at least one scripted outcome
left: the unwrapped result is `outcomeResult` of that outcome, the id
advances, the envelope is appended to the channel log. -/
theorem send_request_script_cons
    (inst : McpServerInstance) (r : Except McpError JsonRpcResponse)
    (rest : List (Except McpError JsonRpcResponse)) (sent : List JsonRpcRequest)
    (method : String) (params : Option Json)
    (h : inst.transport = ⟨r :: rest, sent⟩) :
    inst.send_request method params =
      (outcomeResult r,
       { inst with
          request_id := (inst.request_id + 1) % U64_MOD,
          transport := ⟨rest,
            sent ++ [JsonRpcRequest.new ((inst.request_id + 1) % U64_MOD) method params]⟩ }) := by
  unfold McpServerInstance.send_request McpTransport.send
  rw [h]
  cases r <;> rfl

/-- The session state after one `send_request`, for any script. -/
theorem send_request_snd (inst : McpServerInstance) (method : String) (params : Option Json) :
    (inst.send_request method params).2 =
      { inst with
          request_id := (inst.request_id + 1) % U64_MOD,
          transport := ⟨inst.transport.script.tail,
            inst.transport.sent ++
              [JsonRpcRequest.new ((inst.request_id + 1) % U64_MOD) method params]⟩ } := by
  unfold McpServerInstance.send_request McpTransport.send
  rcases inst with ⟨nm, ⟨script, sent⟩, rid, tools, ress⟩
  cases script with
  | nil => rfl
  | cons r rest => cases r <;> rfl

/-- `connect_server` never touches the enabled set or the configuration. -/
theorem connect_server_preserves (m : McpManager) (name : String) (tr : McpTransport) :
    ((m.connect_server name tr).2).enabled_servers = m.enabled_servers
    ∧ ((m.connect_server name tr).2).config = m.config := by
  rcases h : (McpServerInstance.new name tr).init_handshake with ⟨r, inst'⟩
  cases r <;> simp [McpManager.connect_server, h]

/-- A failed handshake makes `connect_server` return the error and leave the
manager state unchanged. -/
theorem connect_server_error (m : McpManager) (name : String) (tr : McpTransport)
    (e : McpError) (inst1 : McpServerInstance)
    (h : (McpServerInstance.new name tr).init_handshake = (.error e, inst1)) :
    m.connect_server name tr = (.error e, m) := by
  simp [McpManager.connect_server, h]

theorem mem_setInsert_self (l : List String) (x : String) : x ∈ setInsert l x := by
  unfold setInsert
  split
  · assumption
  · exact List.mem_cons_self x l

theorem lookup_filter_self {α : Type} (l : List (String × α)) (x : String) :
    (l.filter (fun p => p.1 ≠ x)).lookup x = none := by
  induction l with
  | nil => rfl
  | cons a l ih =>
    by_cases h : a.1 = x
    · simpa [List.filter_cons, h] using ih
    · have hb : (x == a.1) = false := beq_eq_false_iff_ne.mpr (Ne.symm h)
      simpa [List.filter_cons, h, List.lookup, hb] using ih

/-! ## Claim theorems -/

/-- C1 counterexample: a non-2xx (here 500) HTTP response does not make the
send fail before JSON-RPC parsing — `send_http` parses the body as a
JSON-RPC envelope and succeeds. -/
theorem c1_counterexample :
    ¬ (200 ≤ 500 ∧ 500 < 300) ∧
      send_http (HttpOutcome.response 500 "application/json" c1Body) = Except.ok c1Resp :=
  ⟨by decide, by rfl⟩

/-- C1 (amended): `send_http` never inspects the HTTP response status; its
outcome for any status equals its outcome for status 200 — the body always
proceeds to (SSE unwrapping and) JSON-RPC parsing, and there is no
status-based `HttpError` failure path. -/
theorem c1_send_http_ignores_status (status : Nat) (content_type body : String) :
    send_http (HttpOutcome.response status content_type body) =
      send_http (HttpOutcome.response 200 content_type body) := rfl

/-- C2 counterexample: for `\x7b"content":"hi"\x7d` the claim demands the
stringification of the whole value (no `content` array is present), but
`extract_text` returns the stringification of the `content` member alone. -/
theorem c2_counterexample :
    Json.get c2CxVal "content" = some (Json.str "hi") ∧
      extract_text c2CxVal = "\"hi\"" ∧
      extract_text c2CxVal ≠ Json.render c2CxVal :=
  ⟨by rfl, by rfl, by decide⟩

/-- C2 (amended): if the `content` field holds an array, `extract_text`
joins the items' string `text` members with newline; if `content` is present
but not an array, it returns the stringification of the `content` value
(not of the whole input); only when `content` is absent does it return the
stringification of the whole value. -/
theorem c2_extract_text (v : Json) :
    (∀ items, v.get "content" = some (Json.arr items) →
        extract_text v = String.intercalate "\n"
          (items.filterMap (fun item => (item.get "text").bind Json.asStr)))
    ∧ (∀ c, v.get "content" = some c → c.asArray = none → extract_text v = c.render)
    ∧ (v.get "content" = none → extract_text v = v.render) := by
  refine ⟨?_, ?_, ?_⟩
  · intro items h
    simp [extract_text, h, Json.asArray]
  · intro c h hc
    simp [extract_text, h, hc]
  · intro h
    simp [extract_text, h]

/-- C2 witness: the two examples of the specification, via the amended
theorem. -/
theorem c2_extract_text_witness :
    extract_text c2ArrVal = "a\nb" ∧ extract_text c2OtherVal = "\x7b\"other\":1\x7d" := by
  constructor
  · have h := (c2_extract_text c2ArrVal).1
      [Json.obj [("text", Json.str "a")], Json.obj [("text", Json.str "b")]] (by rfl)
    exact h.trans (by decide)
  · have h := (c2_extract_text c2OtherVal).2.2 (by rfl)
    exact h.trans (by decide)

/-- Ids logged by a run of `send_request` calls: the existing log followed by
consecutive ids starting right after the session's current counter. -/
theorem runSends_sent_ids (L : List (String × Option Json)) :
    ∀ inst : McpServerInstance, inst.request_id + L.length < U64_MOD →
      (runSends inst L).transport.sent.map (fun r => r.id)
        = inst.transport.sent.map (fun r => r.id)
          ++ List.range' (inst.request_id + 1) L.length := by
  induction L with
  | nil =>
    intro inst _
    simp [runSends]
  | cons mp rest ih =>
    intro inst h
    obtain ⟨method, params⟩ := mp
    have hlt : inst.request_id + 1 < U64_MOD := by
      simp only [List.length_cons] at h
      omega
    have hmod : (inst.request_id + 1) % U64_MOD = inst.request_id + 1 :=
      Nat.mod_eq_of_lt hlt
    have hrest : ((inst.send_request method params).2).request_id + rest.length < U64_MOD := by
      rw [send_request_snd]
      simp only [List.length_cons] at h
      simp [hmod]
      omega
    simp only [runSends]
    rw [ih _ hrest, send_request_snd]
    simp [hmod, JsonRpcRequest.new, List.range'_succ, List.append_assoc]

/-- C3: through one session, the request ids assigned by N `send_request`
calls are exactly 1..N in issue order (the counter starts at 0 and each
envelope carries the incremented value); a second fresh session assigns its
own 1..M independently — id state is a per-session field, never shared. -/
theorem c3_request_ids (n₁ n₂ : String)
    (s₁ s₂ : List (Except McpError JsonRpcResponse))
    (L₁ L₂ : List (String × Option Json))
    (h₁ : L₁.length < U64_MOD) (h₂ : L₂.length < U64_MOD) :
    (runSends (McpServerInstance.new n₁ ⟨s₁, []⟩) L₁).transport.sent.map (fun r => r.id)
        = List.range' 1 L₁.length
    ∧ (runSends (McpServerInstance.new n₂ ⟨s₂, []⟩) L₂).transport.sent.map (fun r => r.id)
        = List.range' 1 L₂.length := by
  constructor
  · have h := runSends_sent_ids L₁ (McpServerInstance.new n₁ ⟨s₁, []⟩)
      (by simpa [McpServerInstance.new] using h₁)
    simpa [McpServerInstance.new] using h
  · have h := runSends_sent_ids L₂ (McpServerInstance.new n₂ ⟨s₂, []⟩)
      (by simpa [McpServerInstance.new] using h₂)
    simpa [McpServerInstance.new] using h

/-- C3 witness: three calls through one fresh session log ids 1,2,3; two
calls through another fresh session log ids 1,2. -/
theorem c3_request_ids_witness :
    (runSends (McpServerInstance.new "a" ⟨[], []⟩)
        [("initialize", none), ("tools/list", none), ("resources/list", none)]).transport.sent.map
        (fun r => r.id) = [1, 2, 3]
    ∧ (runSends (McpServerInstance.new "b" ⟨[], []⟩)
        [("initialize", none), ("tools/list", none)]).transport.sent.map
        (fun r => r.id) = [1, 2] := by
  have h := c3_request_ids "a" "b" [] []
    [("initialize", none), ("tools/list", none), ("resources/list", none)]
    [("initialize", none), ("tools/list", none)] (by decide) (by decide)
  exact ⟨h.1.trans (by decide), h.2.trans (by decide)⟩

theorem stripPrefix_of_startsWith (l : String) (h : strStartsWith l "data:" = true) :
    stripPrefix l "data:" = some (String.mk (l.data.drop 5)) := by
  unfold stripPrefix
  rw [if_pos h]
  have h5 : "data:".data.length = 5 := by decide
  rw [h5]

/-- On the lines that survive the `starts_with` filter, stripping the marker
then trimming equals trimming the five-character-dropped tail. -/
theorem filterMap_strip_eq_map (ls : List String) :
    (ls.filter (fun l => strStartsWith l "data:")).filterMap
        (fun line => (stripPrefix line "data:").map rustTrim)
      = (ls.filter (fun l => strStartsWith l "data:")).map
        (fun l => rustTrim (String.mk (l.data.drop 5))) := by
  induction ls with
  | nil => rfl
  | cons a ls ih =>
    by_cases h : strStartsWith a "data:" = true
    · simp [List.filter_cons, h, List.filterMap_cons, stripPrefix_of_startsWith a h, ih]
    · simp only [List.filter_cons, h, if_false, Bool.false_eq_true]
      exact ih

/-- C6: the SSE reducer agrees with the specification's description — keep
only `data:`-marked lines, strip the marker, trim, discard empties, take the
last, falling back to the raw body — and yields `\x7b"a":2\x7d` on the
two-event example. -/
theorem c6_sse_reducer (body : String) :
    parse_sse_response body = sseReduceSpec body
    ∧ parse_sse_response "data: \x7b\"a\":1\x7d\n\ndata: \x7b\"a\":2\x7d\n\n"
        = "\x7b\"a\":2\x7d" := by
  constructor
  · unfold parse_sse_response sseReduceSpec
    rw [filterMap_strip_eq_map (rustLines body)]
    cases ((((rustLines body).filter (fun l => strStartsWith l "data:")).map
        (fun l => rustTrim (String.mk (l.data.drop 5)))).filter (fun s => s ≠ "")).getLast? with
    | none => rfl
    | some l => rfl
  · decide

theorem splitn2Chars_of_not_mem (sep : Char) (l : List Char) (h : sep ∉ l) :
    splitn2Chars sep l = none := by
  induction l with
  | nil => rfl
  | cons c cs ih =>
    have hne : ¬ c = sep := fun hc => h (by rw [hc]; exact List.mem_cons_self sep cs)
    have hmem : sep ∉ cs := fun hm => h (List.mem_cons_of_mem c hm)
    simp only [splitn2Chars, if_neg hne, ih hmem, Option.map_none']

theorem splitn2Chars_first (sep : Char) (l r : List Char) (h : sep ∉ l) :
    splitn2Chars sep (l ++ sep :: r) = some (l, r) := by
  induction l with
  | nil => simp [splitn2Chars]
  | cons c cs ih =>
    have hne : ¬ c = sep := fun hc => h (by rw [hc]; exact List.mem_cons_self sep cs)
    have hmem : sep ∉ cs := fun hm => h (List.mem_cons_of_mem c hm)
    simp only [List.cons_append, splitn2Chars, if_neg hne]
    show Option.map (fun p => (c :: p.1, p.2)) (splitn2Chars sep (cs ++ sep :: r))
        = some (c :: cs, r)
    rw [ih hmem]
    rfl

/-- C5: a full name with no underscore fails with the invalid-format error;
otherwise the name splits at the first underscore into provider and tool and
the call is delegated to `call_tool`. -/
theorem c5_call_tool_by_full_name (m : McpManager) (args : Json) (full s t : String) :
    ( '_' ∉ full.data →
        m.call_tool_by_full_name full args = (.error (.invalidToolNameFormat full), m))
    ∧ ( '_' ∉ s.data →
        m.call_tool_by_full_name (s ++ "_" ++ t) args = m.call_tool s t args) := by
  constructor
  · intro h
    unfold McpManager.call_tool_by_full_name splitn2
    rw [splitn2Chars_of_not_mem _ _ h]
  · intro h
    unfold McpManager.call_tool_by_full_name splitn2
    have hd : (s ++ "_" ++ t).data = s.data ++ '_' :: t.data := by
      simp [String.data_append]
    rw [hd, splitn2Chars_first _ _ _ h]

/-- C5 witness: "alpha_beta" resolves to provider "alpha" and tool "beta";
"a_b_c" resolves to provider "a" and tool "b_c"; a name without underscore
fails with the invalid-format error. -/
theorem c5_call_tool_by_full_name_witness :
    mgr0.call_tool_by_full_name "alpha_beta" Json.null
        = mgr0.call_tool "alpha" "beta" Json.null
    ∧ mgr0.call_tool_by_full_name "a_b_c" Json.null = mgr0.call_tool "a" "b_c" Json.null
    ∧ mgr0.call_tool_by_full_name "nounderscore" Json.null
        = (.error (.invalidToolNameFormat "nounderscore"), mgr0) := by
  refine ⟨?_, ?_, ?_⟩
  · exact (c5_call_tool_by_full_name mgr0 Json.null "x" "alpha" "beta").2 (by decide)
  · exact (c5_call_tool_by_full_name mgr0 Json.null "x" "a" "b_c").2 (by decide)
  · exact (c5_call_tool_by_full_name mgr0 Json.null "nounderscore" "x" "x").1 (by decide)

/-- C4: `call_tool` fails with the disabled-server error whenever the
provider is not enabled (this check precedes the liveness check), fails with
the not-connected error when enabled but not live, and otherwise the result
and the stored session are exactly those of the live session's
`send_request` for method `tools/call` with params
`\x7b name: tool, arguments: args \x7d`. -/
theorem c4_call_tool (m : McpManager) (server tool : String) (args : Json) :
    (server ∉ m.enabled_servers →
        m.call_tool server tool args = (.error (.serverDisabled server), m))
    ∧ (server ∈ m.enabled_servers → m.servers.lookup server = none →
        m.call_tool server tool args = (.error (.serverNotConnected server), m))
    ∧ (∀ inst, server ∈ m.enabled_servers → m.servers.lookup server = some inst →
        (m.call_tool server tool args).1
            = (inst.send_request "tools/call"
                (some (Json.obj [("name", Json.str tool), ("arguments", args)]))).1
        ∧ (m.call_tool server tool args).2.servers.lookup server
            = some (inst.send_request "tools/call"
                (some (Json.obj [("name", Json.str tool), ("arguments", args)]))).2) := by
  refine ⟨?_, ?_, ?_⟩
  · intro h
    simp [McpManager.call_tool, h]
  · intro h hn
    simp [McpManager.call_tool, h, hn]
  · intro inst h hs
    rcases hsr : inst.send_request "tools/call"
        (some (Json.obj [("name", Json.str tool), ("arguments", args)])) with ⟨r, inst'⟩
    simp [McpManager.call_tool, h, hs, hsr, alistInsert, List.lookup]

/-- C4 witness: precedence of the disabled check on a connected-but-disabled
provider; the not-connected error; and a concrete forwarded `tools/call`
envelope (id 1) logged on the live session's channel. -/
theorem c4_call_tool_witness :
    mgrPrec.call_tool "d" "t" Json.null = (.error (.serverDisabled "d"), mgrPrec)
    ∧ mgrNC.call_tool "w" "t" Json.null = (.error (.serverNotConnected "w"), mgrNC)
    ∧ (mgr0.call_tool "x" "t" Json.null).1 = .error .transportClosed
    ∧ (mgr0.call_tool "x" "t" Json.null).2.servers.lookup "x"
        = some ⟨"x", ⟨[], [JsonRpcRequest.new 1 "tools/call"
            (some (Json.obj [("name", Json.str "t"), ("arguments", Json.null)]))]⟩,
            1, [toolT], []⟩ := by
  refine ⟨?_, ?_, ?_, ?_⟩
  · exact (c4_call_tool mgrPrec "d" "t" Json.null).1 (by decide)
  · exact (c4_call_tool mgrNC "w" "t" Json.null).2.1 (by decide) (by rfl)
  · exact (((c4_call_tool mgr0 "x" "t" Json.null).2.2 instX (by decide) (by rfl)).1).trans
      (by rfl)
  · exact (((c4_call_tool mgr0 "x" "t" Json.null).2.2 instX (by decide) (by rfl)).2).trans
      (by rfl)

/-- C7: enabling a name absent from the configuration fails with the
not-found error and changes nothing; enabling a configured name adds it to
the enabled set (idempotently); if the name is already live no connection is
attempted, otherwise the call delegates to `connect_server` and a handshake
failure is propagated to the caller. -/
theorem c7_enable_server (m : McpManager) (name : String) (tr : McpTransport) :
    (m.config.lookup name = none →
        m.enable_server name tr = (.error (.serverNotFoundInConfig name), m))
    ∧ ((m.config.lookup name).isSome →
        name ∈ (m.enable_server name tr).2.enabled_servers
        ∧ ((m.servers.lookup name).isSome →
            m.enable_server name tr
              = (.ok (), { m with enabled_servers := setInsert m.enabled_servers name }))
        ∧ ((m.servers.lookup name).isNone →
            m.enable_server name tr
              = ({ m with enabled_servers := setInsert m.enabled_servers name
                  }).connect_server name tr
            ∧ ∀ e inst1, (McpServerInstance.new name tr).init_handshake = (.error e, inst1) →
                (m.enable_server name tr).1 = .error e)) := by
  constructor
  · intro h
    simp [McpManager.enable_server, h]
  · intro h
    obtain ⟨cfg, hc⟩ := Option.isSome_iff_exists.mp h
    by_cases hl : (m.servers.lookup name).isSome
    · refine ⟨?_, fun _ => ?_, fun hn => ?_⟩
      · simp [McpManager.enable_server, hc, hl, mem_setInsert_self]
      · simp [McpManager.enable_server, hc, hl]
      · rw [Option.isNone_iff_eq_none] at hn
        rw [hn] at hl
        simp at hl
    · have hl' : (m.servers.lookup name) = none := by
        cases h2 : m.servers.lookup name with
        | none => rfl
        | some v => exact absurd (by simp [h2]) hl
      have heq : m.enable_server name tr
          = ({ m with enabled_servers := setInsert m.enabled_servers name
              }).connect_server name tr := by
        simp [McpManager.enable_server, hc, hl']
      refine ⟨?_, fun hs => ?_, fun _ => ⟨heq, fun e inst1 hi => ?_⟩⟩
      · rw [heq]
        rw [(connect_server_preserves _ name tr).1]
        exact mem_setInsert_self m.enabled_servers name
      · rw [hs] at hl
        simp at hl
      · rw [heq, connect_server_error _ name tr e inst1 hi]

/-- C7 witness: enabling the unconfigured name "ghost" fails and leaves the
manager (so its enabled set) unchanged; enabling the already-live "x"
succeeds without a connection attempt; enabling the configured, not-live "z"
over a transport whose handshake fails propagates the failure. -/
theorem c7_enable_server_witness :
    mgr0.enable_server "ghost" emptyTransport
        = (.error (.serverNotFoundInConfig "ghost"), mgr0)
    ∧ mgr0.enable_server "x" emptyTransport = (.ok (), mgr0)
    ∧ (mgr0.enable_server "z" failTransport).1 = .error .transportClosed := by
  refine ⟨?_, ?_, ?_⟩
  · exact (c7_enable_server mgr0 "ghost" emptyTransport).1 (by rfl)
  · exact (((c7_enable_server mgr0 "x" emptyTransport).2 (by rfl)).2.1 (by rfl)).trans (by rfl)
  · exact ((((c7_enable_server mgr0 "z" failTransport).2 (by rfl)).2.2 (by rfl)).2 _ _ rfl)

/-- C8: `disable_server` always succeeds, removes the name from the enabled
set and the live registry, leaves the configuration untouched, and afterwards
`get_all_tools` lists no pair naming that provider. -/
theorem c8_disable_server (m : McpManager) (x : String) :
    (m.disable_server x).1 = .ok ()
    ∧ x ∉ (m.disable_server x).2.enabled_servers
    ∧ (m.disable_server x).2.servers.lookup x = none
    ∧ (∀ p ∈ (m.disable_server x).2.get_all_tools, p.1 ≠ x)
    ∧ (m.disable_server x).2.config = m.config := by
  refine ⟨rfl, ?_, ?_, ?_, rfl⟩
  · simp [McpManager.disable_server, List.mem_filter]
  · simpa [McpManager.disable_server, alistRemove] using
      lookup_filter_self m.servers x
  · intro p hp
    simp only [McpManager.disable_server, McpManager.get_all_tools,
      List.mem_flatMap] at hp
    obtain ⟨q, hq, hpq⟩ := hp
    split at hpq
    · next hqe =>
      have hx : q.1 ≠ x := by
        have := List.mem_filter.mp hqe
        simpa using this.2
      obtain ⟨t, _, ht⟩ := List.mem_map.mp hpq
      intro hpx
      exact hx (by rw [← ht] at hpx; exact hpx)
    · simp at hpq

/-- C8 witness: after disabling "x" on a manager where "x" is enabled,
connected and configured, the call succeeds, "x" is out of the enabled set
and live registry, contributes nothing to `get_all_tools`, and the
configuration still contains "x". -/
theorem c8_disable_server_witness :
    (mgr0.disable_server "x").1 = .ok ()
    ∧ "x" ∉ (mgr0.disable_server "x").2.enabled_servers
    ∧ (mgr0.disable_server "x").2.servers.lookup "x" = none
    ∧ ("x", toolT) ∉ (mgr0.disable_server "x").2.get_all_tools
    ∧ (mgr0.disable_server "x").2.config.lookup "x" = some cfgHttp := by
  have h := c8_disable_server mgr0 "x"
  refine ⟨h.1, h.2.1, h.2.2.1, ?_, ?_⟩
  · intro hc
    exact (h.2.2.2.1 ("x", toolT) hc) rfl
  · rw [h.2.2.2.2]
    rfl

/-- C10: `enable_server` inserts the name into the enabled set before
connecting, and a connect failure (the handshake's first request failing) is
returned without rolling the insertion back: the name ends up enabled but
absent from the live registry. -/
theorem c10_enable_no_rollback (m : McpManager) (name : String) (cfg : McpServerConfig)
    (r0 : Except McpError JsonRpcResponse) (rest : List (Except McpError JsonRpcResponse))
    (sent0 : List JsonRpcRequest) (e : McpError)
    (hc : m.config.lookup name = some cfg)
    (hs : m.servers.lookup name = none)
    (h0 : outcomeResult r0 = .error e) :
    m.enable_server name ⟨r0 :: rest, sent0⟩
        = (.error e, { m with enabled_servers := setInsert m.enabled_servers name })
    ∧ name ∈ (m.enable_server name ⟨r0 :: rest, sent0⟩).2.enabled_servers
    ∧ (m.enable_server name ⟨r0 :: rest, sent0⟩).2.servers.lookup name = none := by
  have hinit : (McpServerInstance.new name ⟨r0 :: rest, sent0⟩).init_handshake
      = (.error e,
         { McpServerInstance.new name ⟨r0 :: rest, sent0⟩ with
            request_id := 1 % U64_MOD,
            transport := ⟨rest, sent0 ++ [JsonRpcRequest.new (1 % U64_MOD) "initialize"
              (some create_init_params)]⟩ }) := by
    unfold McpServerInstance.init_handshake
    rw [send_request_script_cons (McpServerInstance.new name ⟨r0 :: rest, sent0⟩) r0 rest sent0
      "initialize" (some create_init_params) rfl]
    rw [McpServerInstance.new]
    rw [h0]
  have heq : m.enable_server name ⟨r0 :: rest, sent0⟩
      = (.error e, { m with enabled_servers := setInsert m.enabled_servers name }) := by
    have hd : ({ m with enabled_servers := setInsert m.enabled_servers name
        } : McpManager).connect_server name ⟨r0 :: rest, sent0⟩
        = (.error e, { m with enabled_servers := setInsert m.enabled_servers name }) :=
      connect_server_error _ name _ e _ hinit
    simp [McpManager.enable_server, hc, hs, hd]
  refine ⟨heq, ?_, ?_⟩
  · rw [heq]
    exact mem_setInsert_self m.enabled_servers name
  · rw [heq]
    exact hs

/-- C10 witness: enabling the configured, unconnected provider "z" with a
transport whose handshake fails leaves "z" enabled yet unconnected, and the
error is returned. -/
theorem c10_enable_no_rollback_witness :
    mgr0.enable_server "z" failTransport
        = (.error .transportClosed,
           { mgr0 with enabled_servers := setInsert mgr0.enabled_servers "z" })
    ∧ "z" ∈ (mgr0.enable_server "z" failTransport).2.enabled_servers
    ∧ (mgr0.enable_server "z" failTransport).2.servers.lookup "z" = none := by
  exact c10_enable_no_rollback mgr0 "z" cfgHttp (.error .transportClosed) [] []
    .transportClosed (by rfl) (by rfl) (by rfl)

/-- A handshake whose `initialize` request fails (transport error, RPC
error or missing result) aborts with that error after the one send. -/
theorem init_handshake_error_script (name : String) (r0 : Except McpError JsonRpcResponse)
    (rest : List (Except McpError JsonRpcResponse)) (sent0 : List JsonRpcRequest)
    (e0 : McpError) (h0 : outcomeResult r0 = .error e0) :
    (McpServerInstance.new name ⟨r0 :: rest, sent0⟩).init_handshake
      = (.error e0,
         ⟨name, ⟨rest, sent0 ++ [JsonRpcRequest.new 1 "initialize"
            (some create_init_params)]⟩, 1, [], []⟩) := by
  unfold McpServerInstance.init_handshake
  rw [send_request_script_cons (McpServerInstance.new name ⟨r0 :: rest, sent0⟩) r0 rest sent0
    "initialize" (some create_init_params) rfl]
  rw [McpServerInstance.new]
  rw [h0]
  rfl

set_option maxHeartbeats 1600000 in
/-- A handshake whose `initialize` request succeeds runs all four requests
and succeeds, caching whatever the best-effort discovery outcomes allow. -/
theorem init_handshake_ok_script (name : String)
    (r0 r1 r2 r3 : Except McpError JsonRpcResponse)
    (rest : List (Except McpError JsonRpcResponse)) (sent0 : List JsonRpcRequest)
    (v0 : Json) (h0 : outcomeResult r0 = .ok v0) :
    (McpServerInstance.new name ⟨r0 :: r1 :: r2 :: r3 :: rest, sent0⟩).init_handshake
      = (.ok (), handshakeInstance name r2 r3 rest sent0) := by
  rcases r0 with e0 | resp0
  · exact absurd h0 (by simp [outcomeResult])
  · simp only [outcomeResult] at h0
    rcases r1 with e1 | resp1 <;>
      rcases r2 with e2 | resp2 <;>
        rcases r3 with e3 | resp3
    all_goals try rcases h2 : resp2.into_result with e2' | v2'
    all_goals try rcases hg2 : v2'.get "tools" with _ | tj2
    all_goals try rcases h3 : resp3.into_result with e3' | v3'
    all_goals try rcases hg3 : v3'.get "resources" with _ | rj3
    all_goals
      simp_all [McpServerInstance.init_handshake, McpServerInstance.send_request,
        McpTransport.send, McpServerInstance.new, handshakeInstance,
        toolsFromOutcome, resourcesFromOutcome, outcomeResult, U64_MOD,
        List.append_assoc]

/-- C9: when the `initialize` request of the connect-time handshake fails,
the connect fails; when it succeeds the connect succeeds regardless of the
`tools/list` and `resources/list` outcomes, and a failing listing — or a
listing whose `tools`/`resources` payload fails to decode — just leaves the
corresponding cache of the registered session empty. -/
theorem c9_best_effort_discovery (m : McpManager) (name : String)
    (r0 r1 r2 r3 : Except McpError JsonRpcResponse)
    (rest : List (Except McpError JsonRpcResponse)) (sent0 : List JsonRpcRequest) :
    (∀ e0, outcomeResult r0 = .error e0 →
        m.connect_server name ⟨r0 :: r1 :: r2 :: r3 :: rest, sent0⟩ = (.error e0, m))
    ∧ (∀ v0, outcomeResult r0 = .ok v0 →
        (m.connect_server name ⟨r0 :: r1 :: r2 :: r3 :: rest, sent0⟩).1 = .ok ()
        ∧ ((m.connect_server name ⟨r0 :: r1 :: r2 :: r3 :: rest, sent0⟩).2.servers.lookup
              name).map (fun i => i.tools)
            = some (toolsFromOutcome (outcomeResult r2))
        ∧ ((m.connect_server name ⟨r0 :: r1 :: r2 :: r3 :: rest, sent0⟩).2.servers.lookup
              name).map (fun i => i.resources)
            = some (resourcesFromOutcome (outcomeResult r3))
        ∧ (∀ e2, outcomeResult r2 = .error e2 → toolsFromOutcome (outcomeResult r2) = [])
        ∧ (∀ v2 tj, outcomeResult r2 = .ok v2 → v2.get "tools" = some tj →
            decodeTools tj = none → toolsFromOutcome (outcomeResult r2) = [])
        ∧ (∀ e3, outcomeResult r3 = .error e3 →
            resourcesFromOutcome (outcomeResult r3) = [])
        ∧ (∀ v3 rj, outcomeResult r3 = .ok v3 → v3.get "resources" = some rj →
            decodeResources rj = none → resourcesFromOutcome (outcomeResult r3) = [])) := by
  constructor
  · intro e0 h0
    exact connect_server_error m name _ e0 _ (init_handshake_error_script name r0 _ sent0 e0 h0)
  · intro v0 h0
    have hconn : m.connect_server name ⟨r0 :: r1 :: r2 :: r3 :: rest, sent0⟩
        = (.ok (),
           ⟨alistInsert m.servers name (handshakeInstance name r2 r3 rest sent0),
            m.config, m.enabled_servers⟩) := by
      simp [McpManager.connect_server, init_handshake_ok_script name r0 r1 r2 r3 rest sent0 v0 h0]
    refine ⟨?_, ?_, ?_, ?_, ?_, ?_, ?_⟩
    · rw [hconn]
    · rw [hconn]
      simp [alistInsert, List.lookup, handshakeInstance]
    · rw [hconn]
      simp [alistInsert, List.lookup, handshakeInstance]
    · intro e2 h2
      rw [h2]
      rfl
    · intro v2 tj h2 htj hdec
      rw [h2]
      simp [toolsFromOutcome, htj, hdec]
    · intro e3 h3
      rw [h3]
      rfl
    · intro v3 rj h3 hrj hdec
      rw [h3]
      simp [resourcesFromOutcome, hrj, hdec]

/-- C9 witness: a provider whose `initialize` succeeds and whose
notification, `tools/list` and `resources/list` outcomes all fail is still
registered by `connect_server`, with empty tool and resource caches. -/
theorem c9_best_effort_discovery_witness :
    (mgrNC.connect_server "w" handshakeFailTransport).1 = .ok ()
    ∧ ((mgrNC.connect_server "w" handshakeFailTransport).2.servers.lookup "w").map
        (fun i => i.tools) = some []
    ∧ ((mgrNC.connect_server "w" handshakeFailTransport).2.servers.lookup "w").map
        (fun i => i.resources) = some [] := by
  have h := (c9_best_effort_discovery mgrNC "w" (.ok okResp) (.error .transportClosed)
    (.error .transportClosed) (.error .transportClosed) [] []).2 (Json.obj []) (by rfl)
  exact ⟨h.1, (h.2.1).trans (by rfl), (h.2.2.1).trans (by rfl)⟩
